import Mathlib

/-!
Shallow embedding of the query-descriptor formatter of `app/strategy/service.py`
(`_coerce_to_dict` and `format_query_from_strat_name`), together with the
Python runtime helpers they rely on (truthiness, `str()`, `str.rstrip`,
`dict.get`, `json.loads`, `ast.literal_eval`).

Modelling conventions:
* Python values are the inductive `PyVal`.  Dictionary keys are restricted to
  strings (every key the source code produces or consults is a string).
* Python floats are carried as their decimal source literal; `str()` of a
  float returns that literal, which agrees with CPython for canonical
  literals such as `0.15` (the only ones that occur in this development).
* `json.loads` and `ast.literal_eval` are modelled by executable recursive
  descent functions over the character list, covering the constructs the
  repository's data can contain (objects/dicts, arrays/lists, tuples,
  strings with the common escapes, integers, decimal floats, booleans and
  null/None).  Raising is modelled by `Option.none`.
* Character-level string predicates (whitespace, lower-casing) are the ASCII
  fragment of their CPython counterparts.
-/

namespace BtBackend

/-- The single-quote character, kept as a named constant. -/
def sqc : Char := Char.ofNat 39

/-- The single-quote character as a string. -/
def sq : String := String.mk [sqc]

/-- A Python runtime value, as far as the formatter can observe it. -/
inductive PyVal where
  | none
  | bool (b : Bool)
  | int (n : Int)
  | float (lit : String)
  | str (s : String)
  | list (xs : List PyVal)
  | tuple (xs : List PyVal)
  | dict (entries : List (String × PyVal))

/-- Name of the Python type of a value, as it appears in error messages. -/
def pyTypeName : PyVal → String
  | .none => "NoneType"
  | .bool _ => "bool"
  | .int _ => "int"
  | .float _ => "float"
  | .str _ => "str"
  | .list _ => "list"
  | .tuple _ => "tuple"
  | .dict _ => "dict"

/-- A float literal denotes zero iff its mantissa digits are all zero. -/
def floatLitIsZero (lit : String) : Bool :=
  (lit.toList.takeWhile (fun c => c ≠ 'e' ∧ c ≠ 'E')).all
    (fun c => c = '0' ∨ c = '.' ∨ c = '-' ∨ c = '+')

/-- Python truthiness (`bool(v)`). -/
def pyTruthy : PyVal → Bool
  | .none => false
  | .bool b => b
  | .int n => n ≠ 0
  | .float lit => !floatLitIsZero lit
  | .str s => s ≠ ""
  | .list xs => !xs.isEmpty
  | .tuple xs => !xs.isEmpty
  | .dict es => !es.isEmpty

/-- Python `a or b`: the first operand if truthy, otherwise the second. -/
def pyOr (a b : PyVal) : PyVal := if pyTruthy a then a else b

mutual

/-- Python `repr()` restricted to the values above (string escaping inside
reprs is not modelled; no claim inspects the repr of a string containing
quotes). -/
def pyRepr : PyVal → String
  | .none => "None"
  | .bool true => "True"
  | .bool false => "False"
  | .int n => toString n
  | .float lit => lit
  | .str s => sq ++ s ++ sq
  | .list xs => "[" ++ String.intercalate ", " (pyReprList xs) ++ "]"
  | .tuple xs =>
    let parts := pyReprList xs
    match parts with
    | [p] => "(" ++ p ++ ",)"
    | _ => "(" ++ String.intercalate ", " parts ++ ")"
  | .dict es => "\x7b" ++ String.intercalate ", " (pyReprEntries es) ++ "\x7d"

/-- Reprs of the elements of a list value. -/
def pyReprList : List PyVal → List String
  | [] => []
  | x :: xs => pyRepr x :: pyReprList xs

/-- Reprs of the key/value pairs of a dict value. -/
def pyReprEntries : List (String × PyVal) → List String
  | [] => []
  | (k, v) :: es => (sq ++ k ++ sq ++ ": " ++ pyRepr v) :: pyReprEntries es

end

/-- Python `str()`: the string itself for strings, `repr` otherwise. -/
def pyStr : PyVal → String
  | .str s => s
  | v => pyRepr v

/-- Python whitespace for `strip`/`rstrip` (ASCII fragment). -/
def pyIsSpace (c : Char) : Bool :=
  c = ' ' ∨ c = '\t' ∨ c = '\n' ∨ c = '\r' ∨ c = '\x0b' ∨ c = '\x0c'

/-- Drop trailing whitespace characters from a character list. -/
def rstripWsList (cs : List Char) : List Char :=
  (cs.reverse.dropWhile pyIsSpace).reverse

/-- Python `s.rstrip()`. -/
def pyRstrip (s : String) : String := String.mk (rstripWsList s.toList)

/-- Drop trailing characters belonging to `set` from a character list. -/
def rstripCharsList (set : List Char) (cs : List Char) : List Char :=
  (cs.reverse.dropWhile (fun c => set.contains c)).reverse

/-- Python `s.rstrip(chars)`: removes the longest trailing run of characters
drawn from the given character set (not a substring match). -/
def pyRstripChars (s : String) (set : List Char) : String :=
  String.mk (rstripCharsList set s.toList)

/-- Strip leading and trailing whitespace from a character list. -/
def stripWsList (cs : List Char) : List Char :=
  rstripWsList (cs.dropWhile pyIsSpace)

/-- Python `s.strip()`. -/
def pyStrip (s : String) : String := String.mk (stripWsList s.toList)

/-- ASCII lower-casing of one character. -/
def pyLowerChar (c : Char) : Char :=
  if 'A' ≤ c ∧ c ≤ 'Z' then Char.ofNat (c.toNat + 32) else c

/-- Python `s.lower()` (ASCII fragment). -/
def pyLower (s : String) : String := String.mk (s.toList.map pyLowerChar)

/-- Lookup in a dict's entry list; `Option.none` when the key is absent. -/
def dictLookup (es : List (String × PyVal)) (k : String) : Option PyVal :=
  match es.find? (fun kv => kv.1 == k) with
  | Option.some kv => Option.some kv.2
  | Option.none => Option.none

/-- Python `d.get(k)`: the stored value, or `None` when the key is absent. -/
def dictGet (es : List (String × PyVal)) (k : String) : PyVal :=
  (dictLookup es k).getD PyVal.none

/-- Insert a key/value pair as Python dict assignment does: replace the value
in place when the key exists, append otherwise. -/
def insertKey (es : List (String × PyVal)) (k : String) (v : PyVal) :
    List (String × PyVal) :=
  match es with
  | [] => [(k, v)]
  | (k0, v0) :: rest =>
    if k0 == k then (k0, v) :: rest else (k0, v0) :: insertKey rest k v

/-- Decode a hexadecimal digit. -/
def parseHexDigit (c : Char) : Option Nat :=
  if '0' ≤ c ∧ c ≤ '9' then Option.some (c.toNat - 48)
  else if 'a' ≤ c ∧ c ≤ 'f' then Option.some (c.toNat - 87)
  else if 'A' ≤ c ∧ c ≤ 'F' then Option.some (c.toNat - 55)
  else Option.none

/-- Whitespace accepted between tokens by both parsers. -/
def skipWs (cs : List Char) : List Char :=
  cs.dropWhile (fun c => c = ' ' ∨ c = '\t' ∨ c = '\n' ∨ c = '\r')

/-- Numeric value of a list of decimal digits. -/
def digitsToNat (ds : List Char) : Nat :=
  ds.foldl (fun acc c => acc * 10 + (c.toNat - 48)) 0

/-- Body of a JSON string after the opening double quote (strict mode:
raw control characters are rejected, the standard escapes are decoded). -/
def parseJStringBody (fuel : Nat) (cs : List Char) (acc : List Char) :
    Option (String × List Char) :=
  match fuel with
  | 0 => Option.none
  | fuel + 1 =>
    match cs with
    | [] => Option.none
    | c :: rest =>
      if c = '"' then Option.some (String.mk acc.reverse, rest)
      else if c = '\\' then
        match rest with
        | [] => Option.none
        | e :: rest2 =>
          if e = '"' then parseJStringBody fuel rest2 ('"' :: acc)
          else if e = '\\' then parseJStringBody fuel rest2 ('\\' :: acc)
          else if e = '/' then parseJStringBody fuel rest2 ('/' :: acc)
          else if e = 'b' then parseJStringBody fuel rest2 ('\x08' :: acc)
          else if e = 'f' then parseJStringBody fuel rest2 ('\x0c' :: acc)
          else if e = 'n' then parseJStringBody fuel rest2 ('\n' :: acc)
          else if e = 'r' then parseJStringBody fuel rest2 ('\r' :: acc)
          else if e = 't' then parseJStringBody fuel rest2 ('\t' :: acc)
          else if e = 'u' then
            match rest2 with
            | h1 :: h2 :: h3 :: h4 :: rest3 =>
              match parseHexDigit h1, parseHexDigit h2,
                    parseHexDigit h3, parseHexDigit h4 with
              | Option.some a, Option.some b, Option.some c3, Option.some d =>
                parseJStringBody fuel rest3
                  (Char.ofNat (((a * 16 + b) * 16 + c3) * 16 + d) :: acc)
              | _, _, _, _ => Option.none
            | _ => Option.none
          else Option.none
      else if c.toNat < 32 then Option.none
      else parseJStringBody fuel rest (c :: acc)

/-- A JSON number: optional minus, integer part without spurious leading
zeros, optional fraction, optional exponent; integers stay `int`, anything
with a fraction or exponent becomes a `float` carrying its literal text. -/
def parseJNumber (cs : List Char) : Option (PyVal × List Char) :=
  let (sgn, cs1) :=
    match cs with
    | c :: r => if c = '-' then (['-'], r) else (([] : List Char), cs)
    | [] => (([] : List Char), cs)
  let ip := cs1.takeWhile Char.isDigit
  let cs2 := cs1.drop ip.length
  if ip.isEmpty then Option.none
  else if 1 < ip.length ∧ ip.head? = Option.some '0' then Option.none
  else
    let (fp, cs3) :=
      match cs2 with
      | '.' :: r =>
        let fd := r.takeWhile Char.isDigit
        if fd.isEmpty then (Option.none, cs2)
        else (Option.some ('.' :: fd), r.drop fd.length)
      | _ => (Option.none, cs2)
    let (ep, cs4) :=
      match cs3 with
      | e :: r =>
        if e = 'e' ∨ e = 'E' then
          let (es, r1) :=
            match r with
            | s :: r2 => if s = '+' ∨ s = '-' then ([e, s], r2) else ([e], r)
            | [] => ([e], r)
          let ed := r1.takeWhile Char.isDigit
          if ed.isEmpty then (Option.none, cs3)
          else (Option.some (es ++ ed), r1.drop ed.length)
        else (Option.none, cs3)
      | [] => (Option.none, cs3)
    match fp, ep with
    | Option.none, Option.none =>
      let n : Int := Int.ofNat (digitsToNat ip)
      Option.some (PyVal.int (if sgn.isEmpty then n else -n), cs4)
    | _, _ =>
      Option.some
        (PyVal.float (String.mk (sgn ++ ip ++ fp.getD [] ++ ep.getD [])), cs4)

mutual

/-- One JSON value (strict `json.loads` grammar). -/
def parseJValue (fuel : Nat) (cs : List Char) : Option (PyVal × List Char) :=
  match fuel with
  | 0 => Option.none
  | fuel + 1 =>
    match skipWs cs with
    | [] => Option.none
    | c :: rest =>
      if c = '"' then
        match parseJStringBody (rest.length + 1) rest [] with
        | Option.some (s, r) => Option.some (PyVal.str s, r)
        | Option.none => Option.none
      else if c = '\x7b' then
        match skipWs rest with
        | '\x7d' :: r => Option.some (PyVal.dict [], r)
        | other => parseJMembers fuel other []
      else if c = '[' then
        match skipWs rest with
        | ']' :: r => Option.some (PyVal.list [], r)
        | other => parseJElems fuel other []
      else if c = 't' then
        match rest with
        | 'r' :: 'u' :: 'e' :: r => Option.some (PyVal.bool true, r)
        | _ => Option.none
      else if c = 'f' then
        match rest with
        | 'a' :: 'l' :: 's' :: 'e' :: r => Option.some (PyVal.bool false, r)
        | _ => Option.none
      else if c = 'n' then
        match rest with
        | 'u' :: 'l' :: 'l' :: r => Option.some (PyVal.none, r)
        | _ => Option.none
      else parseJNumber (c :: rest)

/-- Members of a JSON object, positioned at a key; later duplicate keys
overwrite earlier ones, as in `json.loads`. -/
def parseJMembers (fuel : Nat) (cs : List Char)
    (acc : List (String × PyVal)) : Option (PyVal × List Char) :=
  match fuel with
  | 0 => Option.none
  | fuel + 1 =>
    match skipWs cs with
    | '"' :: rest =>
      match parseJStringBody (rest.length + 1) rest [] with
      | Option.some (k, r1) =>
        match skipWs r1 with
        | ':' :: r2 =>
          match parseJValue fuel r2 with
          | Option.some (v, r3) =>
            let acc1 := insertKey acc k v
            match skipWs r3 with
            | ',' :: r4 => parseJMembers fuel r4 acc1
            | '\x7d' :: r4 => Option.some (PyVal.dict acc1, r4)
            | _ => Option.none
          | Option.none => Option.none
        | _ => Option.none
      | Option.none => Option.none
    | _ => Option.none

/-- Elements of a JSON array, positioned at a value. -/
def parseJElems (fuel : Nat) (cs : List Char) (acc : List PyVal) :
    Option (PyVal × List Char) :=
  match fuel with
  | 0 => Option.none
  | fuel + 1 =>
    match parseJValue fuel cs with
    | Option.some (v, r1) =>
      match skipWs r1 with
      | ',' :: r2 => parseJElems fuel r2 (acc ++ [v])
      | ']' :: r2 => Option.some (PyVal.list (acc ++ [v]), r2)
      | _ => Option.none
    | Option.none => Option.none

end

/-- Model of `json.loads` on a string: one value, then only trailing
whitespace.  `Option.none` models the call raising. -/
def jsonLoadsStr (s : String) : Option PyVal :=
  match parseJValue (4 * s.length + 16) s.toList with
  | Option.some (v, rest) =>
    if (skipWs rest).isEmpty then Option.some v else Option.none
  | Option.none => Option.none

/-- Body of a Python string literal after its opening quote `q`.  The common
escapes are decoded; an unknown escape keeps the backslash, as CPython does. -/
def parseLStringBody (fuel : Nat) (q : Char) (cs : List Char)
    (acc : List Char) : Option (String × List Char) :=
  match fuel with
  | 0 => Option.none
  | fuel + 1 =>
    match cs with
    | [] => Option.none
    | c :: rest =>
      if c = q then Option.some (String.mk acc.reverse, rest)
      else if c = '\\' then
        match rest with
        | [] => Option.none
        | e :: rest2 =>
          if e = '\\' then parseLStringBody fuel q rest2 ('\\' :: acc)
          else if e = sqc then parseLStringBody fuel q rest2 (sqc :: acc)
          else if e = '"' then parseLStringBody fuel q rest2 ('"' :: acc)
          else if e = 'n' then parseLStringBody fuel q rest2 ('\n' :: acc)
          else if e = 't' then parseLStringBody fuel q rest2 ('\t' :: acc)
          else if e = 'r' then parseLStringBody fuel q rest2 ('\r' :: acc)
          else if e = 'b' then parseLStringBody fuel q rest2 ('\x08' :: acc)
          else if e = 'f' then parseLStringBody fuel q rest2 ('\x0c' :: acc)
          else if e = '0' then parseLStringBody fuel q rest2 ('\x00' :: acc)
          else if e = 'x' then
            match rest2 with
            | h1 :: h2 :: rest3 =>
              match parseHexDigit h1, parseHexDigit h2 with
              | Option.some a, Option.some b =>
                parseLStringBody fuel q rest3 (Char.ofNat (a * 16 + b) :: acc)
              | _, _ => Option.none
            | _ => Option.none
          else parseLStringBody fuel q rest2 (e :: '\\' :: acc)
      else parseLStringBody fuel q rest (c :: acc)

/-- A Python numeric literal with at most one unary sign: decimal integers
(leading zeros only in an all-zero literal) or decimal floats, which keep
their literal text. -/
def parseLNumber (cs : List Char) : Option (PyVal × List Char) :=
  let (sgn, cs1) :=
    match cs with
    | c :: r =>
      if c = '-' then (['-'], r)
      else if c = '+' then (([] : List Char), r)
      else (([] : List Char), cs)
    | [] => (([] : List Char), cs)
  let ip := cs1.takeWhile Char.isDigit
  let cs2 := cs1.drop ip.length
  let (fp, cs3) :=
    match cs2 with
    | '.' :: r =>
      let fd := r.takeWhile Char.isDigit
      (Option.some ('.' :: fd), r.drop fd.length)
    | _ => (Option.none, cs2)
  if ip.isEmpty ∧ (fp = Option.none ∨ fp = Option.some ['.']) then Option.none
  else if 1 < ip.length ∧ ip.head? = Option.some '0' ∧
      ¬ ip.all (fun c => c = '0') then Option.none
  else
    let (ep, cs4) :=
      match cs3 with
      | e :: r =>
        if e = 'e' ∨ e = 'E' then
          let (es, r1) :=
            match r with
            | s :: r2 => if s = '+' ∨ s = '-' then ([e, s], r2) else ([e], r)
            | [] => ([e], r)
          let ed := r1.takeWhile Char.isDigit
          if ed.isEmpty then (Option.none, cs3)
          else (Option.some (es ++ ed), r1.drop ed.length)
        else (Option.none, cs3)
      | [] => (Option.none, cs3)
    match fp, ep with
    | Option.none, Option.none =>
      let n : Int := Int.ofNat (digitsToNat ip)
      Option.some (PyVal.int (if sgn.isEmpty then n else -n), cs4)
    | _, _ =>
      Option.some
        (PyVal.float (String.mk (sgn ++ ip ++ fp.getD [] ++ ep.getD [])), cs4)

mutual

/-- One Python literal (the fragment of `ast.literal_eval` covering strings,
numbers, `True`/`False`/`None`, lists, tuples, parenthesized literals and
dicts with string keys; other shapes are modelled as raising). -/
def parseLValue (fuel : Nat) (cs : List Char) : Option (PyVal × List Char) :=
  match fuel with
  | 0 => Option.none
  | fuel + 1 =>
    match skipWs cs with
    | [] => Option.none
    | c :: rest =>
      if c = '"' ∨ c = sqc then
        match parseLStringBody (rest.length + 1) c rest [] with
        | Option.some (s, r) => Option.some (PyVal.str s, r)
        | Option.none => Option.none
      else if c = '\x7b' then
        match skipWs rest with
        | '\x7d' :: r => Option.some (PyVal.dict [], r)
        | other => parseLPairs fuel other []
      else if c = '[' then
        match skipWs rest with
        | ']' :: r => Option.some (PyVal.list [], r)
        | other => parseLElems fuel other []
      else if c = '(' then
        match skipWs rest with
        | ')' :: r => Option.some (PyVal.tuple [], r)
        | other =>
          match parseLValue fuel other with
          | Option.some (v, r1) =>
            match skipWs r1 with
            | ')' :: r2 => Option.some (v, r2)
            | ',' :: r2 => parseLTupleElems fuel r2 [v]
            | _ => Option.none
          | Option.none => Option.none
      else if c = 'T' then
        match rest with
        | 'r' :: 'u' :: 'e' :: r => Option.some (PyVal.bool true, r)
        | _ => Option.none
      else if c = 'F' then
        match rest with
        | 'a' :: 'l' :: 's' :: 'e' :: r => Option.some (PyVal.bool false, r)
        | _ => Option.none
      else if c = 'N' then
        match rest with
        | 'o' :: 'n' :: 'e' :: r => Option.some (PyVal.none, r)
        | _ => Option.none
      else parseLNumber (c :: rest)

/-- Key/value pairs of a Python dict literal, positioned at a key; keys are
restricted to string literals; trailing commas are accepted. -/
def parseLPairs (fuel : Nat) (cs : List Char)
    (acc : List (String × PyVal)) : Option (PyVal × List Char) :=
  match fuel with
  | 0 => Option.none
  | fuel + 1 =>
    match skipWs cs with
    | q :: rest =>
      if q = '"' ∨ q = sqc then
        match parseLStringBody (rest.length + 1) q rest [] with
        | Option.some (k, r1) =>
          match skipWs r1 with
          | ':' :: r2 =>
            match parseLValue fuel r2 with
            | Option.some (v, r3) =>
              let acc1 := insertKey acc k v
              match skipWs r3 with
              | ',' :: r4 =>
                match skipWs r4 with
                | '\x7d' :: r5 => Option.some (PyVal.dict acc1, r5)
                | _ => parseLPairs fuel r4 acc1
              | '\x7d' :: r4 => Option.some (PyVal.dict acc1, r4)
              | _ => Option.none
            | Option.none => Option.none
          | _ => Option.none
        | Option.none => Option.none
      else Option.none
    | [] => Option.none

/-- Elements of a Python list literal, positioned at a value; trailing commas
are accepted. -/
def parseLElems (fuel : Nat) (cs : List Char) (acc : List PyVal) :
    Option (PyVal × List Char) :=
  match fuel with
  | 0 => Option.none
  | fuel + 1 =>
    match parseLValue fuel cs with
    | Option.some (v, r1) =>
      match skipWs r1 with
      | ',' :: r2 =>
        match skipWs r2 with
        | ']' :: r3 => Option.some (PyVal.list (acc ++ [v]), r3)
        | _ => parseLElems fuel r2 (acc ++ [v])
      | ']' :: r2 => Option.some (PyVal.list (acc ++ [v]), r2)
      | _ => Option.none
    | Option.none => Option.none

/-- Elements of a tuple literal after the first comma. -/
def parseLTupleElems (fuel : Nat) (cs : List Char) (acc : List PyVal) :
    Option (PyVal × List Char) :=
  match fuel with
  | 0 => Option.none
  | fuel + 1 =>
    match skipWs cs with
    | ')' :: r => Option.some (PyVal.tuple acc, r)
    | other =>
      match parseLValue fuel other with
      | Option.some (v, r1) =>
        match skipWs r1 with
        | ',' :: r2 => parseLTupleElems fuel r2 (acc ++ [v])
        | ')' :: r2 => Option.some (PyVal.tuple (acc ++ [v]), r2)
        | _ => Option.none
      | Option.none => Option.none

end

/-- Model of `ast.literal_eval` on a string: one literal, then only trailing
whitespace.  `Option.none` models the call raising. -/
def literalEval (s : String) : Option PyVal :=
  match parseLValue (4 * s.length + 16) s.toList with
  | Option.some (v, rest) =>
    if (skipWs rest).isEmpty then Option.some v else Option.none
  | Option.none => Option.none

/-- The fixed sign table of `format_query_from_strat_name` (source lines
111-118 of `app/strategy/service.py`). -/
def sign_map : List (String × String) :=
  [("gt", ">"), ("gte", ">="), ("lt", "<"), ("lte", "<="),
   ("eq", "="), ("ne", "!=")]

/-- The rendered comparison token, source line 139:
`sign_map.get(str(sign).lower(), sign)`. -/
def readableSign (sign : PyVal) : PyVal :=
  match sign_map.find? (fun kv => kv.1 == pyLower (pyStr sign)) with
  | Option.some kv => PyVal.str kv.2
  | Option.none => sign

/-- Message of the AttributeError raised by `v.get(...)` on a non-dict. -/
def attrErr (v : PyVal) : String :=
  sq ++ pyTypeName v ++ sq ++ " object has no attribute " ++ sq ++ "get" ++ sq

/-- Source line 124: `filter_item.get('Data') or filter_item.get('data')
or \x7b\x7d`. -/
def dataOf (es : List (String × PyVal)) : PyVal :=
  pyOr (dictGet es "Data") (pyOr (dictGet es "data") (PyVal.dict []))

/-- Source line 125: the `Operator`/`operator` selection. -/
def operatorOf (es : List (String × PyVal)) : PyVal :=
  pyOr (dictGet es "Operator") (pyOr (dictGet es "operator") (PyVal.str ""))

/-- Source line 127: `data.get('param') or \x7b\x7d`. -/
def paramOf (ds : List (String × PyVal)) : PyVal :=
  pyOr (dictGet ds "param") (PyVal.dict [])

/-- Threshold rendering, source lines 134-137. -/
def thresholdStr (t : PyVal) : String :=
  match t with
  | .list xs => String.intercalate "," (xs.map pyStr)
  | .tuple xs => String.intercalate "," (xs.map pyStr)
  | _ => pyStr t

/-- Append the trailing operator, source lines 141-142: only a string whose
strip is non-empty is appended. -/
def appendOperator (clause : String) (operator : PyVal) : String :=
  match operator with
  | .str o => if pyStrip o ≠ "" then clause ++ " " ++ pyStrip o else clause
  | _ => clause

/-- Render the clause of one mapping-shaped filter entry (source lines
124-143).  `Except.error` models the AttributeError raised by `.get` when
the selected Data value, or its selected param, is a truthy non-mapping
(the `or`-chains deliver either a truthy value or an empty dict, so a
non-dict outcome is exactly the raising case). -/
def renderClause (es : List (String × PyVal)) : Except String String :=
  let data := dataOf es
  let operator := operatorOf es
  match data with
  | .dict ds =>
    match paramOf ds with
    | .dict ps =>
      let param_name :=
        pyOr (dictGet ps "name") (pyOr (dictGet ps "field") (PyVal.str "Unknown"))
      let sign := pyOr (dictGet ds "sign") (pyOr (dictGet ds "op") (PyVal.str "="))
      let threshold := dictGet ds "threshold"
      let period := (dictLookup ds "period").getD (PyVal.int 1)
      let clause := pyStrip (pyStr param_name ++ " " ++ pyStr period ++
        " Years " ++ pyStr (readableSign sign) ++ " " ++ thresholdStr threshold)
      Except.ok (appendOperator clause operator)
    | p => Except.error (attrErr p)
  | d => Except.error (attrErr d)

/-- The filter loop of source lines 120-143: non-mapping entries are skipped
(`continue`); a raised AttributeError aborts the whole loop. -/
def renderFilters : List PyVal → Except String (List String)
  | [] => Except.ok []
  | item :: rest =>
    match item with
    | .dict es =>
      match renderClause es with
      | Except.ok c =>
        match renderFilters rest with
        | Except.ok cs => Except.ok (c :: cs)
        | Except.error e => Except.error e
      | Except.error e => Except.error e
    | _ => renderFilters rest

/-- The clause an entry contributes, when it contributes one. -/
def clauseOpt (v : PyVal) : Option String :=
  match v with
  | .dict es =>
    match renderClause es with
    | Except.ok c => Option.some c
    | Except.error _ => Option.none
  | _ => Option.none

/-- An entry does not raise inside the loop: skipped or rendered. -/
def entryOk (v : PyVal) : Bool :=
  match v with
  | .dict es =>
    match renderClause es with
    | Except.ok _ => true
    | Except.error _ => false
  | _ => true

/-- A mapping-shaped entry raises inside the loop exactly when its selected
Data value, or that value's selected param, is a non-mapping. -/
def entryFaults (es : List (String × PyVal)) : Bool :=
  match dataOf es with
  | .dict ds =>
    match paramOf ds with
    | .dict _ => false
    | _ => true
  | _ => true

/-- Source line 147: `' '.join(formatted_filters).rstrip().rstrip('AND').rstrip()`.
Note `rstrip('AND')` strips a trailing run of the characters A, N, D. -/
def joinTrim (clauses : List String) : String :=
  pyRstrip (pyRstripChars (pyRstrip (String.intercalate " " clauses))
    ['A', 'N', 'D'])

/-- Source lines 145-149: join when clauses exist, sentinel otherwise. -/
def finishClauses (clauses : List String) : String :=
  if clauses.isEmpty then "No valid filters found" else joinTrim clauses

/-- Source lines 107-149: extract `filters` (must be a non-empty list) and
run the rendering loop. -/
def renderFromDict (qd : List (String × PyVal)) : Except String String :=
  match dictGet qd "filters" with
  | .list fs =>
    if fs.isEmpty then Except.ok "No filters defined"
    else
      match renderFilters fs with
      | Except.ok cs => Except.ok (finishClauses cs)
      | Except.error e => Except.error e
  | _ => Except.ok "No filters defined"

/-- Step 4 of `_coerce_to_dict` (source lines 60-67): replace every single
quote by a double quote and retry the strict parse. -/
def sanitizeStep (s : String) : Option PyVal :=
  match jsonLoadsStr (String.mk (s.toList.map (fun c => if c = sqc then '"' else c))) with
  | Option.some (PyVal.dict d) => Option.some (PyVal.dict d)
  | _ => Option.none

/-- Source lines 25-69, `_coerce_to_dict`: strict JSON parse, then Python
literal parse, then (only when the literal parse yields a string whose
strict parse raises) a nested literal parse, then the quote-swap retry;
every failure falls through to the next step, non-strings and the empty
string return None immediately. -/
def _coerce_to_dict (possibly_json : PyVal) : Option PyVal :=
  match possibly_json with
  | .str s =>
    if s = "" then Option.none
    else
      match jsonLoadsStr s with
      | Option.some (PyVal.dict d) => Option.some (PyVal.dict d)
      | _ =>
        match literalEval s with
        | Option.some (PyVal.dict d) => Option.some (PyVal.dict d)
        | Option.some (PyVal.str inner) =>
          match jsonLoadsStr inner with
          | Option.some (PyVal.dict d) => Option.some (PyVal.dict d)
          | Option.some _ => sanitizeStep s
          | Option.none =>
            match literalEval inner with
            | Option.some (PyVal.dict d) => Option.some (PyVal.dict d)
            | _ => sanitizeStep s
        | _ => sanitizeStep s
  | _ => Option.none

/-- `json.loads` applied to an arbitrary value: raises on non-strings. -/
def pyJsonLoads (v : PyVal) : Option PyVal :=
  match v with
  | .str s => jsonLoadsStr s
  | _ => Option.none

/-- Source lines 87-92: strict parse first, `_coerce_to_dict` on failure; a
coercion result of null is the Python value `None`. -/
def parsedQueryData (v : PyVal) : PyVal :=
  match pyJsonLoads v with
  | Option.some q => q
  | Option.none => (_coerce_to_dict v).getD PyVal.none

/-- Source lines 97-105: single-level unwrap of a nested `query` key. -/
def unwrapQuery (d : List (String × PyVal)) : List (String × PyVal) :=
  match dictLookup d "query" with
  | Option.some (PyVal.str inner) =>
    match _coerce_to_dict (PyVal.str inner) with
    | Option.some (PyVal.dict r) => r
    | _ => d
  | Option.some (PyVal.dict r) => r
  | _ => d

/-- Body of the outer try of `format_query_from_strat_name` (source lines
82-149); `Except.error` carries the message of an uncaught fault. -/
def formatBody (strat_name : PyVal) : Except String String :=
  if pyTruthy strat_name then
    match parsedQueryData strat_name with
    | PyVal.dict d => renderFromDict (unwrapQuery d)
    | _ => Except.ok "Invalid query format"
  else Except.ok "No query available"

/-- The outer except of source lines 151-152. -/
def exceptToStr (r : Except String String) : String :=
  match r with
  | Except.ok s => s
  | Except.error e => "Query parsing error: " ++ e

/-- Source lines 71-152: the full formatter. -/
def format_query_from_strat_name (strat_name : PyVal) : String :=
  exceptToStr (formatBody strat_name)

/-- Modelled from the spec: the trailing-connector trim as the spec words it
in §3/§4.2 — strip trailing whitespace, remove a trailing literal `AND`
substring if present at the very end, strip trailing whitespace again.
Stated only for comparison with the source's `joinTrim`. -/
def specStripTrailingAND (s : String) : String :=
  let t := rstripWsList s.toList
  let u := if List.isSuffixOf ['A', 'N', 'D'] t then t.take (t.length - 3) else t
  String.mk (rstripWsList u)

/-! Concrete descriptor fixtures used by the theorems below. -/

/-- Two filters whose rendered clauses both end in `AND` (spec §8 example). -/
def roePeText : String :=
  "\x7b\"filters\": [\x7b\"Data\": \x7b\"param\": \x7b\"name\": \"ROE\"\x7d, \"sign\": \"gt\", \"threshold\": 0.1\x7d, \"Operator\": \"AND\"\x7d, \x7b\"Data\": \x7b\"param\": \x7b\"name\": \"PE\"\x7d, \"sign\": \"lt\", \"threshold\": 20\x7d, \"Operator\": \"AND\"\x7d]\x7d"

/-- A single filter whose operator makes the joined string end in `ANDAND`. -/
def andAndText : String :=
  "\x7b\"filters\": [\x7b\"Data\": \x7b\"param\": \x7b\"name\": \"X\"\x7d, \"sign\": \"gt\", \"threshold\": 5\x7d, \"Operator\": \"ANDAND\"\x7d]\x7d"

/-- The filter entry encoded by `andAndText`. -/
def andAndFilter : List (String × PyVal) :=
  [("Data", PyVal.dict [("param", PyVal.dict [("name", PyVal.str "X")]),
     ("sign", PyVal.str "gt"), ("threshold", PyVal.int 5)]),
   ("Operator", PyVal.str "ANDAND")]

/-- The round-trip input of spec §8: one ROE/gt/0.15/period-5 filter. -/
def roundTripText : String :=
  "\x7b\"filters\": [\x7b\"Data\": \x7b\"param\": \x7b\"name\": \"ROE\"\x7d, \"sign\": \"gt\", \"threshold\": 0.15, \"period\": 5\x7d, \"Operator\": \"AND\"\x7d]\x7d"

/-- The filter entry encoded by `roundTripText`. -/
def roundTripFilter : List (String × PyVal) :=
  [("Data", PyVal.dict [("param", PyVal.dict [("name", PyVal.str "ROE")]),
     ("sign", PyVal.str "gt"), ("threshold", PyVal.float "0.15"),
     ("period", PyVal.int 5)]),
   ("Operator", PyVal.str "AND")]

/-- Filter rendering to `A 1 Years > 1`. -/
def filterA : PyVal :=
  PyVal.dict [("Data", PyVal.dict [("param", PyVal.dict [("name", PyVal.str "A")]),
    ("sign", PyVal.str "gt"), ("threshold", PyVal.int 1)])]

/-- Filter rendering to `B 2 Years < 2`. -/
def filterB : PyVal :=
  PyVal.dict [("Data", PyVal.dict [("param", PyVal.dict [("name", PyVal.str "B")]),
    ("sign", PyVal.str "lt"), ("threshold", PyVal.int 2), ("period", PyVal.int 2)])]

/-- JSON text of a dict holding only `filterB` under `filters`. -/
def innerBText : String :=
  "\x7b\"filters\": [\x7b\"Data\": \x7b\"param\": \x7b\"name\": \"B\"\x7d, \"sign\": \"lt\", \"threshold\": 2, \"period\": 2\x7d\x7d]\x7d"

/-- JSON text of a dict with a `query` key (text of `innerBText`) and a
`filters` key holding `filterA`. -/
def nestedInnerText : String :=
  "\x7b\"query\": \"\x7b\\\"filters\\\": [\x7b\\\"Data\\\": \x7b\\\"param\\\": \x7b\\\"name\\\": \\\"B\\\"\x7d, \\\"sign\\\": \\\"lt\\\", \\\"threshold\\\": 2, \\\"period\\\": 2\x7d\x7d]\x7d\", \"filters\": [\x7b\"Data\": \x7b\"param\": \x7b\"name\": \"A\"\x7d, \"sign\": \"gt\", \"threshold\": 1\x7d\x7d]\x7d"

/-- JSON text of the outer dict whose `query` value is the text
`nestedInnerText` (double-encoded descriptor). -/
def nestedOuterText : String :=
  "\x7b\"query\": \"\x7b\\\"query\\\": \\\"\x7b\\\\\\\"filters\\\\\\\": [\x7b\\\\\\\"Data\\\\\\\": \x7b\\\\\\\"param\\\\\\\": \x7b\\\\\\\"name\\\\\\\": \\\\\\\"B\\\\\\\"\x7d, \\\\\\\"sign\\\\\\\": \\\\\\\"lt\\\\\\\", \\\\\\\"threshold\\\\\\\": 2, \\\\\\\"period\\\\\\\": 2\x7d\x7d]\x7d\\\", \\\"filters\\\": [\x7b\\\"Data\\\": \x7b\\\"param\\\": \x7b\\\"name\\\": \\\"A\\\"\x7d, \\\"sign\\\": \\\"gt\\\", \\\"threshold\\\": 1\x7d\x7d]\x7d\"\x7d"

/-- The parsed entries of `nestedInnerText`. -/
def nestedInnerDict : List (String × PyVal) :=
  [("query", PyVal.str innerBText), ("filters", PyVal.list [filterA])]

/-- The parsed entries of `nestedOuterText`. -/
def nestedOuterDict : List (String × PyVal) :=
  [("query", PyVal.str nestedInnerText)]

/-- Filters list mixing mapping-shaped and non-mapping entries. -/
def mixedText : String :=
  "\x7b\"filters\": [\x7b\"Data\": \x7b\"param\": \x7b\"name\": \"A\"\x7d, \"sign\": \"gt\", \"threshold\": 1\x7d\x7d, 7, \x7b\"Data\": \x7b\"param\": \x7b\"name\": \"B\"\x7d, \"sign\": \"lt\", \"threshold\": 2, \"period\": 2\x7d\x7d]\x7d"

/-- The parsed filters list of `mixedText`. -/
def mixedFilters : List PyVal := [filterA, PyVal.int 7, filterB]

/-- Descriptor with an empty `filters` list. -/
def emptyFiltersText : String := "\x7b\"filters\": []\x7d"

/-- Descriptor whose only filter uses the unrecognized sign token `approx`. -/
def approxText : String :=
  "\x7b\"filters\": [\x7b\"Data\": \x7b\"param\": \x7b\"name\": \"X\"\x7d, \"sign\": \"approx\", \"threshold\": 1\x7d\x7d]\x7d"

/-- Descriptor whose second filter has a string under `Data`: rendering it
raises inside the loop. -/
def faultEntryText : String :=
  "\x7b\"filters\": [\x7b\"Data\": \x7b\"param\": \x7b\"name\": \"A\"\x7d, \"sign\": \"gt\", \"threshold\": 1\x7d, \"Operator\": \"AND\"\x7d, \x7b\"Data\": \"x\"\x7d]\x7d"

/-- The faulting entry of `faultEntryText`. -/
def faultEntry : List (String × PyVal) := [("Data", PyVal.str "x")]

/-- The healthy first entry of `faultEntryText`. -/
def goodFilterEntry : List (String × PyVal) :=
  [("Data", PyVal.dict [("param", PyVal.dict [("name", PyVal.str "A")]),
     ("sign", PyVal.str "gt"), ("threshold", PyVal.int 1)]),
   ("Operator", PyVal.str "AND")]

/-- The parsed filters list of `faultEntryText`. -/
def faultFilters : List PyVal :=
  [PyVal.dict goodFilterEntry, PyVal.dict faultEntry]

/-- A JSON object wrapped in Python single quotes: the literal parse yields
a string whose nested strict parse yields a dict. -/
def quotedJsonText : String := sq ++ "\x7b\"a\": 1\x7d" ++ sq

set_option maxRecDepth 100000

/-! Helper lemmas shared by the claim theorems. -/

/-- Dropping while a predicate holds leaves a list whose head fails it
unchanged. -/
theorem dropWhile_of_head_not (p : Char → Bool) (l : List Char)
    (h : ∀ c, l.head? = Option.some c → p c = false) :
    l.dropWhile p = l := by
  cases l with
  | nil => rfl
  | cons c cs => rw [List.dropWhile_cons, h c rfl]; simp

/-- When every entry renders without raising, the loop returns exactly the
clauses of the mapping-shaped entries, in input order. -/
theorem renderFilters_eq_filterMap (fs : List PyVal)
    (h : ∀ e ∈ fs, entryOk e = true) :
    renderFilters fs = Except.ok (fs.filterMap clauseOpt) := by
  induction fs with
  | nil => rfl
  | cons item rest ih =>
    have hrest : ∀ e ∈ rest, entryOk e = true :=
      fun e he => h e (List.mem_cons_of_mem _ he)
    have hitem := h item (List.mem_cons_self _ _)
    cases item
    case dict es =>
      rcases hc : renderClause es with m | c
      · simp [entryOk, hc] at hitem
      · simp [renderFilters, clauseOpt, hc, ih hrest]
    all_goals simp [renderFilters, clauseOpt, ih hrest]

/-- A mapping-shaped entry whose clause raises makes the whole loop raise. -/
theorem renderFilters_error_of_faulty (fs : List PyVal)
    (es : List (String × PyVal)) (m : String)
    (hmem : PyVal.dict es ∈ fs) (herr : renderClause es = Except.error m) :
    ∃ m2, renderFilters fs = Except.error m2 := by
  induction fs with
  | nil => cases hmem
  | cons item rest ih =>
    rcases List.mem_cons.mp hmem with heq | hrest
    · cases heq.symm
      exact ⟨m, by simp [renderFilters, herr]⟩
    · obtain ⟨m2, hm2⟩ := ih hrest
      cases item
      case dict es2 =>
        rcases hc : renderClause es2 with e | c
        · exact ⟨e, by simp [renderFilters, hc]⟩
        · exact ⟨m2, by simp [renderFilters, hc, hm2]⟩
      all_goals exact ⟨m2, by simp [renderFilters, hm2]⟩

/-- The fault condition of `entryFaults` makes `renderClause` raise. -/
theorem entryFaults_error (es : List (String × PyVal))
    (h : entryFaults es = true) : ∃ m, renderClause es = Except.error m := by
  rcases hd : dataOf es with _ | b | n | lit | s | xs | xs | ds
  case dict =>
    rcases hp : paramOf ds with _ | b | n | lit | s | xs | xs | ps
    case dict =>
      simp only [entryFaults, hd, hp] at h
      exact absurd h (by simp)
    all_goals exact ⟨attrErr (paramOf ds), by simp only [renderClause, hd, hp]⟩
  all_goals exact ⟨attrErr (dataOf es), by simp only [renderClause, hd]⟩

/-- A falsy argument never parses to anything: the strict parse and the
coercion both deliver the Python value `None`. -/
theorem parsedQueryData_of_falsy (v : PyVal) (h : pyTruthy v = false) :
    parsedQueryData v = PyVal.none := by
  cases v with
  | str s =>
    have hs : s = "" := by simpa [pyTruthy] using h
    subst hs
    rfl
  | _ => rfl

/-- Only truthy inputs can parse to a dict. -/
theorem pyTruthy_of_parsed_dict (v : PyVal) (d : List (String × PyVal))
    (hq : parsedQueryData v = PyVal.dict d) : pyTruthy v = true := by
  rcases ht : pyTruthy v with _ | _
  · rw [parsedQueryData_of_falsy v ht] at hq; cases hq
  · rfl

/-- When the joined, right-stripped clause string ends in `AND` and the
character before that suffix (if any) is none of `A`, `N`, `D`, the source's
character-set strip agrees with the spec's substring strip. -/
theorem joinTrim_trailing_AND (clauses : List String) (t : List Char)
    (h1 : rstripWsList (String.intercalate " " clauses).toList = t ++ ['A', 'N', 'D'])
    (h2 : ∀ c, t.getLast? = Option.some c →
      (['A', 'N', 'D'] : List Char).contains c = false) :
    joinTrim clauses = specStripTrailingAND (String.intercalate " " clauses) := by
  have hstrip : rstripCharsList ['A', 'N', 'D'] (t ++ ['A', 'N', 'D']) = t := by
    unfold rstripCharsList
    rw [List.reverse_append]
    have h3 : (['A', 'N', 'D'] : List Char).reverse = ['D', 'N', 'A'] := rfl
    rw [h3]
    have h4 : List.dropWhile (fun c => (['A', 'N', 'D'] : List Char).contains c)
        (['D', 'N', 'A'] ++ t.reverse) =
        List.dropWhile (fun c => (['A', 'N', 'D'] : List Char).contains c)
          t.reverse := rfl
    rw [h4, dropWhile_of_head_not _ _
      (fun c hc => h2 c (by rwa [List.head?_reverse] at hc))]
    exact List.reverse_reverse t
  have hsuffix : (['A', 'N', 'D'] : List Char).isSuffixOf
      (t ++ ['A', 'N', 'D']) = true :=
    List.isSuffixOf_iff_suffix.mpr ⟨t, rfl⟩
  have hlhs : joinTrim clauses = String.mk (rstripWsList t) := by
    show String.mk (rstripWsList (rstripCharsList ['A', 'N', 'D']
      (rstripWsList (String.intercalate " " clauses).toList))) = _
    rw [h1, hstrip]
  have hrhs : specStripTrailingAND (String.intercalate " " clauses)
      = String.mk (rstripWsList t) := by
    simp only [specStripTrailingAND]
    rw [h1, if_pos hsuffix, List.length_append]
    simp only [List.length_cons, List.length_nil, Nat.add_sub_cancel]
    rw [List.take_left]
  rw [hlhs, hrhs]

/-! Claim theorems. -/

/-- C1 counterexample: on the descriptor whose single clause renders to
`X 1 Years > 5 ANDAND` — a joined string that ends in the literal `AND` —
the spec's strip of exactly the trailing `AND` substring would return
`X 1 Years > 5 AND`, but `format_query_from_strat_name` returns
`X 1 Years > 5`: `rstrip('AND')` removed more than the final `AND`. -/
theorem claim1_counterexample :
    renderFilters [PyVal.dict andAndFilter] = Except.ok ["X 1 Years > 5 ANDAND"]
    ∧ List.isSuffixOf ['A', 'N', 'D']
        (rstripWsList (String.intercalate " " ["X 1 Years > 5 ANDAND"]).toList) = true
    ∧ specStripTrailingAND (String.intercalate " " ["X 1 Years > 5 ANDAND"])
        = "X 1 Years > 5 AND"
    ∧ parsedQueryData (PyVal.str andAndText)
        = PyVal.dict [("filters", PyVal.list [PyVal.dict andAndFilter])]
    ∧ format_query_from_strat_name (PyVal.str andAndText) = "X 1 Years > 5"
    ∧ "X 1 Years > 5" ≠ "X 1 Years > 5 AND" := by
  refine ⟨rfl, by decide, by decide, rfl, by decide, by decide⟩

/-- C1 amended: the final step strips the longest trailing run of the
characters `A`, `N`, `D` (Python `rstrip('AND')` character-set semantics),
then trailing whitespace — which coincides with removing exactly one
trailing `AND` substring whenever the character preceding that suffix is
not itself `A`, `N` or `D`; the spec's two-clause ROE/PE example renders as
stated. -/
theorem claim1_amended :
    (∀ (clauses : List String) (t : List Char),
      rstripWsList (String.intercalate " " clauses).toList = t ++ ['A', 'N', 'D'] →
      (∀ c, t.getLast? = Option.some c →
        (['A', 'N', 'D'] : List Char).contains c = false) →
      joinTrim clauses = specStripTrailingAND (String.intercalate " " clauses))
    ∧ format_query_from_strat_name (PyVal.str roePeText)
        = "ROE 1 Years > 0.1 AND PE 1 Years < 20" := by
  exact ⟨joinTrim_trailing_AND, by decide⟩

/-- C1 amended witness: the single-clause string `X 1 Years > 5 AND` (whose
`AND` suffix is preceded by a space) is trimmed exactly as the spec words
it. -/
theorem claim1_amended_witness :
    joinTrim ["X 1 Years > 5 AND"]
      = specStripTrailingAND (String.intercalate " " ["X 1 Years > 5 AND"]) :=
  claim1_amended.1 ["X 1 Years > 5 AND"] "X 1 Years > 5 ".toList
    (by decide) (by decide)

/-- C2 counterexample: the round-trip descriptor of spec §8 does not format
to `ROE 5 Years > 0.15 AND` — the final trim removes the trailing
connector. -/
theorem claim2_counterexample :
    format_query_from_strat_name (PyVal.str roundTripText)
      ≠ "ROE 5 Years > 0.15 AND" := by decide

/-- C2 amended: the round-trip descriptor parses to its single ROE filter,
whose clause renders as `ROE 5 Years > 0.15 AND`, and the formatter returns
`ROE 5 Years > 0.15` after trimming the trailing connector. -/
theorem claim2_amended :
    parsedQueryData (PyVal.str roundTripText)
      = PyVal.dict [("filters", PyVal.list [PyVal.dict roundTripFilter])]
    ∧ renderFilters [PyVal.dict roundTripFilter]
        = Except.ok ["ROE 5 Years > 0.15 AND"]
    ∧ format_query_from_strat_name (PyVal.str roundTripText)
        = "ROE 5 Years > 0.15" := by
  refine ⟨rfl, rfl, by decide⟩

/-- C8: the sign token is looked up case-insensitively in the fixed table
`gt, gte, lt, lte, eq, ne`; any token whose lower-casing is not a table key
passes through verbatim, and the `approx` descriptor renders with `approx`
in the symbolic position. -/
theorem claim8_sign_table :
    (∀ s : String, pyLower s = "gt" → readableSign (PyVal.str s) = PyVal.str ">")
    ∧ (∀ s : String, pyLower s = "gte" → readableSign (PyVal.str s) = PyVal.str ">=")
    ∧ (∀ s : String, pyLower s = "lt" → readableSign (PyVal.str s) = PyVal.str "<")
    ∧ (∀ s : String, pyLower s = "lte" → readableSign (PyVal.str s) = PyVal.str "<=")
    ∧ (∀ s : String, pyLower s = "eq" → readableSign (PyVal.str s) = PyVal.str "=")
    ∧ (∀ s : String, pyLower s = "ne" → readableSign (PyVal.str s) = PyVal.str "!=")
    ∧ (∀ s : String,
        pyLower s ∉ (["gt", "gte", "lt", "lte", "eq", "ne"] : List String) →
        readableSign (PyVal.str s) = PyVal.str s)
    ∧ format_query_from_strat_name (PyVal.str approxText) = "X 1 Years approx 1" := by
  refine ⟨?_, ?_, ?_, ?_, ?_, ?_, ?_, by decide⟩
  · intro s h; simp [readableSign, sign_map, List.find?, pyStr, h]
  · intro s h; simp [readableSign, sign_map, List.find?, pyStr, h]
  · intro s h; simp [readableSign, sign_map, List.find?, pyStr, h]
  · intro s h; simp [readableSign, sign_map, List.find?, pyStr, h]
  · intro s h; simp [readableSign, sign_map, List.find?, pyStr, h]
  · intro s h; simp [readableSign, sign_map, List.find?, pyStr, h]
  · intro s h
    simp only [List.mem_cons, List.mem_singleton, not_or] at h
    obtain ⟨h1, h2, h3, h4, h5, h6, -⟩ := h
    have b1 : ("gt" == pyLower s) = false :=
      beq_eq_false_iff_ne.mpr (fun hx => h1 hx.symm)
    have b2 : ("gte" == pyLower s) = false :=
      beq_eq_false_iff_ne.mpr (fun hx => h2 hx.symm)
    have b3 : ("lt" == pyLower s) = false :=
      beq_eq_false_iff_ne.mpr (fun hx => h3 hx.symm)
    have b4 : ("lte" == pyLower s) = false :=
      beq_eq_false_iff_ne.mpr (fun hx => h4 hx.symm)
    have b5 : ("eq" == pyLower s) = false :=
      beq_eq_false_iff_ne.mpr (fun hx => h5 hx.symm)
    have b6 : ("ne" == pyLower s) = false :=
      beq_eq_false_iff_ne.mpr (fun hx => h6 hx.symm)
    simp [readableSign, sign_map, List.find?, pyStr, b1, b2, b3, b4, b5, b6]

/-- C8 witness: `Gt` lower-cases to a table key and maps to `>`; `approx`
is not a table key and passes through unchanged. -/
theorem claim8_sign_table_witness :
    readableSign (PyVal.str "Gt") = PyVal.str ">"
    ∧ readableSign (PyVal.str "approx") = PyVal.str "approx" :=
  ⟨claim8_sign_table.1 "Gt" rfl,
   claim8_sign_table.2.2.2.2.2.2.1 "approx" (by decide)⟩

/-- C9 counterexample: the truthy non-text input `5` is not answered with
`No query available`: the parse is attempted (and raises), the coercion
rejects the non-text, and the result is `Invalid query format`. -/
theorem claim9_counterexample :
    format_query_from_strat_name (PyVal.int 5) = "Invalid query format"
    ∧ "Invalid query format" ≠ "No query available" :=
  ⟨rfl, by decide⟩

/-- C9 amended: every falsy input (null, empty text, zero, false, empty
containers) yields `No query available` with no parse attempted; a truthy
non-text input instead falls through the parse and coercion to
`Invalid query format`. -/
theorem claim9_amended :
    (∀ v : PyVal, pyTruthy v = false →
      format_query_from_strat_name v = "No query available")
    ∧ (∀ v : PyVal, pyTruthy v = true → (∀ s, v ≠ PyVal.str s) →
      format_query_from_strat_name v = "Invalid query format") := by
  constructor
  · intro v h
    simp [format_query_from_strat_name, formatBody, h, exceptToStr]
  · intro v h hns
    cases v
    case str s => exact absurd rfl (hns s)
    all_goals
      simp [format_query_from_strat_name, formatBody, h, exceptToStr,
        parsedQueryData, pyJsonLoads, _coerce_to_dict]

/-- C9 amended witness: null maps to `No query available`, the truthy
non-text `5` to `Invalid query format`. -/
theorem claim9_amended_witness :
    format_query_from_strat_name PyVal.none = "No query available"
    ∧ format_query_from_strat_name (PyVal.int 5) = "Invalid query format" :=
  ⟨claim9_amended.1 PyVal.none rfl,
   claim9_amended.2 (PyVal.int 5) rfl (fun _ h => PyVal.noConfusion h)⟩

/-- C3: the formatter is total — every input yields one of the five sentinel
strings or a joined clause string — and a fault raised inside the body is
absorbed into the `Query parsing error:` form with its message preserved. -/
theorem claim3_total_sentinels (v : PyVal) :
    (format_query_from_strat_name v = "No query available"
      ∨ format_query_from_strat_name v = "Invalid query format"
      ∨ format_query_from_strat_name v = "No filters defined"
      ∨ format_query_from_strat_name v = "No valid filters found"
      ∨ (∃ m, format_query_from_strat_name v = "Query parsing error: " ++ m)
      ∨ (∃ clauses : List String, clauses ≠ []
          ∧ format_query_from_strat_name v = joinTrim clauses))
    ∧ (∀ e, formatBody v = Except.error e →
        format_query_from_strat_name v = "Query parsing error: " ++ e) := by
  have habs : ∀ e, formatBody v = Except.error e →
      format_query_from_strat_name v = "Query parsing error: " ++ e := by
    intro e he
    unfold format_query_from_strat_name exceptToStr
    rw [he]
  refine ⟨?_, habs⟩
  rcases hb : formatBody v with e | s
  · exact Or.inr (Or.inr (Or.inr (Or.inr (Or.inl ⟨e, habs e hb⟩))))
  have hfmt : format_query_from_strat_name v = s := by
    unfold format_query_from_strat_name exceptToStr
    rw [hb]
  rw [hfmt]
  unfold formatBody at hb
  rcases ht : pyTruthy v with _ | _
  · rw [ht] at hb
    simp at hb
    exact Or.inl hb.symm
  rw [ht, if_pos rfl] at hb
  rcases hq : parsedQueryData v with _ | b | n | lit | s2 | xs | xs | d
  all_goals simp only [hq] at hb
  case dict =>
    unfold renderFromDict at hb
    rcases hf : dictGet (unwrapQuery d) "filters" with _ | b | n | lit | s2 | xs | xs | es2
    all_goals simp only [hf] at hb
    case list =>
      by_cases he : xs.isEmpty
      · simp [he] at hb
        exact Or.inr (Or.inr (Or.inl hb.symm))
      · simp only [he, Bool.false_eq_true, if_neg, ite_false] at hb
        rcases hr : renderFilters xs with e2 | cs
        · simp [hr] at hb
        · simp only [hr, Except.ok.injEq] at hb
          unfold finishClauses at hb
          by_cases hcs : cs.isEmpty
          · simp [hcs] at hb
            exact Or.inr (Or.inr (Or.inr (Or.inl hb.symm)))
          · simp only [hcs, Bool.false_eq_true, if_neg, ite_false] at hb
            refine Or.inr (Or.inr (Or.inr (Or.inr (Or.inr ⟨cs, ?_, hb.symm⟩))))
            intro hnil
            rw [hnil] at hcs
            exact hcs rfl
    all_goals (simp at hb; exact Or.inr (Or.inr (Or.inl hb.symm)))
  all_goals (simp at hb; exact Or.inr (Or.inl hb.symm))

/-- C3 witness: a descriptor whose second filter raises inside the loop is
answered with the fault message in the `Query parsing error:` form. -/
theorem claim3_witness :
    format_query_from_strat_name (PyVal.str faultEntryText)
      = "Query parsing error: " ++ attrErr (PyVal.str "x") :=
  (claim3_total_sentinels (PyVal.str faultEntryText)).2
    (attrErr (PyVal.str "x")) rfl

/-- C4: the coercion tries the strict parse first — whenever the strict
parse of the text yields a mapping, that exact mapping is returned and the
quote-swap heuristic is never consulted; when the strict parse and the
literal parse both raise, control falls through to the quote-swap step; and
when the literal parse yields a string whose strict parse yields a mapping,
that nested mapping is returned. -/
theorem claim4_coercion_order :
    (∀ (s : String) (d : List (String × PyVal)),
      jsonLoadsStr s = Option.some (PyVal.dict d) →
      _coerce_to_dict (PyVal.str s) = Option.some (PyVal.dict d))
    ∧ (∀ s : String, s ≠ "" → jsonLoadsStr s = Option.none →
        literalEval s = Option.none →
        _coerce_to_dict (PyVal.str s) = sanitizeStep s)
    ∧ (∀ (s t : String) (d : List (String × PyVal)), s ≠ "" →
        jsonLoadsStr s = Option.none →
        literalEval s = Option.some (PyVal.str t) →
        jsonLoadsStr t = Option.some (PyVal.dict d) →
        _coerce_to_dict (PyVal.str s) = Option.some (PyVal.dict d)) := by
  refine ⟨?_, ?_, ?_⟩
  · intro s d h
    by_cases hs : s = ""
    · rw [hs] at h
      exact Option.noConfusion h
    · simp only [_coerce_to_dict, if_neg hs, h]
  · intro s hs hj hl
    simp only [_coerce_to_dict, if_neg hs, hj, hl]
  · intro s t d hs hj hl hjt
    simp only [_coerce_to_dict, if_neg hs, hj, hl, hjt]

/-- C4 witness: a well-formed object is returned by the strict parse alone;
an unparsable bare word falls through to the quote-swap step; a
single-quoted JSON object is unwrapped one level. -/
theorem claim4_witness :
    _coerce_to_dict (PyVal.str "\x7b\"a\": 1\x7d")
      = Option.some (PyVal.dict [("a", PyVal.int 1)])
    ∧ _coerce_to_dict (PyVal.str "hello") = sanitizeStep "hello"
    ∧ _coerce_to_dict (PyVal.str quotedJsonText)
      = Option.some (PyVal.dict [("a", PyVal.int 1)]) :=
  ⟨claim4_coercion_order.1 "\x7b\"a\": 1\x7d" [("a", PyVal.int 1)] rfl,
   claim4_coercion_order.2.1 "hello" (by decide) rfl rfl,
   claim4_coercion_order.2.2 quotedJsonText "\x7b\"a\": 1\x7d"
     [("a", PyVal.int 1)] (by decide) rfl rfl rfl⟩

/-- C5: when the parsed mapping holds a `query` key with text that coerces
to a mapping, or directly a mapping, the formatter renders from that
replacement; the unwrap happens once only — on the double-encoded fixture
the inner mapping's own `query` key is ignored and its `filters` are used,
whereas a second unwrap would have reached the innermost filters. -/
theorem claim5_query_unwrap :
    (∀ (v : PyVal) (d r : List (String × PyVal)) (t : String),
      parsedQueryData v = PyVal.dict d →
      dictLookup d "query" = Option.some (PyVal.str t) →
      _coerce_to_dict (PyVal.str t) = Option.some (PyVal.dict r) →
      format_query_from_strat_name v = exceptToStr (renderFromDict r))
    ∧ (∀ (v : PyVal) (d r : List (String × PyVal)),
      parsedQueryData v = PyVal.dict d →
      dictLookup d "query" = Option.some (PyVal.dict r) →
      format_query_from_strat_name v = exceptToStr (renderFromDict r))
    ∧ format_query_from_strat_name (PyVal.str nestedOuterText) = "A 1 Years > 1"
    ∧ exceptToStr (renderFromDict (unwrapQuery (unwrapQuery nestedOuterDict)))
        = "B 2 Years < 2" := by
  refine ⟨?_, ?_, by decide, by decide⟩
  · intro v d r t hq hl hc
    have hu : unwrapQuery d = r := by
      simp only [unwrapQuery, hl, hc]
    unfold format_query_from_strat_name formatBody
    rw [if_pos (pyTruthy_of_parsed_dict v d hq), hq]
    simp only [hu]
  · intro v d r hq hl
    have hu : unwrapQuery d = r := by
      simp only [unwrapQuery, hl]
    unfold format_query_from_strat_name formatBody
    rw [if_pos (pyTruthy_of_parsed_dict v d hq), hq]
    simp only [hu]

/-- C5 witness: the double-encoded fixture unwraps via the coercion of its
`query` text and formats from the replacement mapping. -/
theorem claim5_witness :
    format_query_from_strat_name (PyVal.str nestedOuterText)
      = exceptToStr (renderFromDict nestedInnerDict) :=
  claim5_query_unwrap.1 (PyVal.str nestedOuterText) nestedOuterDict
    nestedInnerDict nestedInnerText rfl rfl rfl

/-- C6: with a non-empty `filters` list whose entries all render without
raising, the output is built from exactly one clause per mapping-shaped
entry, in input order, non-mapping entries skipped; when no entry is a
mapping, zero clauses are produced and the answer is
`No valid filters found`. -/
theorem claim6_clause_per_entry (v : PyVal) (d : List (String × PyVal))
    (fs : List PyVal)
    (hq : parsedQueryData v = PyVal.dict d)
    (hf : dictGet (unwrapQuery d) "filters" = PyVal.list fs)
    (hne : fs ≠ [])
    (hok : ∀ e ∈ fs, entryOk e = true) :
    format_query_from_strat_name v = finishClauses (fs.filterMap clauseOpt) := by
  have hE : fs.isEmpty = false := by
    rcases fs with _ | ⟨a, rest⟩
    · exact absurd rfl hne
    · rfl
  unfold format_query_from_strat_name
  have hbody : formatBody v
      = Except.ok (finishClauses (fs.filterMap clauseOpt)) := by
    simp only [formatBody, if_pos (pyTruthy_of_parsed_dict v d hq), hq,
      renderFromDict, hf, hE, renderFilters_eq_filterMap fs hok,
      Bool.false_eq_true, if_neg, ite_false]
  rw [hbody]
  rfl

/-- C6 witness: the mixed fixture (mapping, number, mapping) renders one
clause per mapping entry in order. -/
theorem claim6_witness :
    format_query_from_strat_name (PyVal.str mixedText)
      = finishClauses (mixedFilters.filterMap clauseOpt) :=
  claim6_clause_per_entry (PyVal.str mixedText)
    [("filters", PyVal.list mixedFilters)] mixedFilters rfl rfl
    (by simp [mixedFilters]) (by decide)

/-- C7: after parsing and unwrapping, a `filters` value that is absent, not
a list, or an empty list yields `No filters defined`; a non-empty list
proceeds to the clause-rendering loop. -/
theorem claim7_filters_guard (v : PyVal) (d : List (String × PyVal))
    (hq : parsedQueryData v = PyVal.dict d) :
    ((∀ fs : List PyVal,
        dictGet (unwrapQuery d) "filters" = PyVal.list fs → fs = []) →
      format_query_from_strat_name v = "No filters defined")
    ∧ (∀ fs : List PyVal,
        dictGet (unwrapQuery d) "filters" = PyVal.list fs → fs ≠ [] →
        format_query_from_strat_name v
          = exceptToStr ((renderFilters fs).map finishClauses)) := by
  have ht := pyTruthy_of_parsed_dict v d hq
  constructor
  · intro hbad
    unfold format_query_from_strat_name
    have hbody : formatBody v = Except.ok "No filters defined" := by
      simp only [formatBody, if_pos ht, hq]
      rcases hfv : dictGet (unwrapQuery d) "filters" with _ | b | n | lit | s2 | xs | xs | es2
      case list =>
        have hxs : xs = [] := hbad xs hfv
        subst hxs
        simp [renderFromDict, hfv]
      all_goals simp [renderFromDict, hfv]
    rw [hbody]
    rfl
  · intro fs hf hne
    have hE : fs.isEmpty = false := by
      rcases fs with _ | ⟨a, rest⟩
      · exact absurd rfl hne
      · rfl
    unfold format_query_from_strat_name
    have hbody : formatBody v = (renderFilters fs).map finishClauses := by
      simp only [formatBody, if_pos ht, hq, renderFromDict, hf, hE,
        Bool.false_eq_true, if_neg, ite_false]
      rcases hr : renderFilters fs with e | cs
      all_goals simp [Except.map]
    rw [hbody]

/-- C7 witness: an explicitly empty `filters` list yields
`No filters defined`. -/
theorem claim7_witness :
    format_query_from_strat_name (PyVal.str emptyFiltersText)
      = "No filters defined" :=
  (claim7_filters_guard (PyVal.str emptyFiltersText)
      [("filters", PyVal.list [])] rfl).1
    (fun fs h => by injection h with h2; exact h2.symm)

/-- C10: if any filter entry is a mapping whose selected Data value — or
that value's selected param — is a truthy non-mapping, the fault raised
inside the loop aborts the whole call, including already-rendered clauses,
and the answer is the `Query parsing error:` sentinel; on the concrete
fixture the first clause is discarded and the AttributeError message
appears verbatim. -/
theorem claim10_fault_aborts :
    (∀ (v : PyVal) (d : List (String × PyVal)) (fs : List PyVal)
        (es : List (String × PyVal)),
      parsedQueryData v = PyVal.dict d →
      dictGet (unwrapQuery d) "filters" = PyVal.list fs →
      PyVal.dict es ∈ fs →
      entryFaults es = true →
      ∃ m, format_query_from_strat_name v = "Query parsing error: " ++ m)
    ∧ format_query_from_strat_name (PyVal.str faultEntryText)
        = "Query parsing error: " ++ sq ++ "str" ++ sq
          ++ " object has no attribute " ++ sq ++ "get" ++ sq := by
  refine ⟨?_, by decide⟩
  intro v d fs es hq hf hmem hfault
  obtain ⟨m0, hm0⟩ := entryFaults_error es hfault
  obtain ⟨m, hm⟩ := renderFilters_error_of_faulty fs es m0 hmem hm0
  have hE : fs.isEmpty = false := by
    rcases fs with _ | ⟨a, rest⟩
    · cases hmem
    · rfl
  refine ⟨m, ?_⟩
  unfold format_query_from_strat_name
  have hbody : formatBody v = Except.error m := by
    simp only [formatBody, if_pos (pyTruthy_of_parsed_dict v d hq), hq,
      renderFromDict, hf, hE, hm, Bool.false_eq_true, if_neg, ite_false]
  rw [hbody]
  rfl

/-- C10 witness: the concrete faulting fixture is rejected with a
`Query parsing error:` answer. -/
theorem claim10_witness :
    ∃ m, format_query_from_strat_name (PyVal.str faultEntryText)
      = "Query parsing error: " ++ m :=
  claim10_fault_aborts.1 (PyVal.str faultEntryText)
    [("filters", PyVal.list faultFilters)] faultFilters faultEntry
    rfl rfl (List.mem_cons_of_mem _ (List.mem_cons_self _ _)) rfl

end BtBackend
